import Mathlib

/-!
Verification of the twittp trend-prediction model (src/twittp/model.py and
src/twittp/twitter.py) against its natural-language specification.

The Python code is shallowly embedded: floats become rationals, Python ints
become integers, lists become Lean lists, and operations that can raise an
exception (IndexError, AttributeError, KeyError, ZeroDivisionError) or not
terminate return Option / Except values.
-/

/-- Embeds TrendCell (model.py): one data point of a trend line.  The numeric
fields are Python floats, modelled as rationals. -/
structure TrendCell where
  trending : Bool
  count : ℚ
  delta : ℚ
  delta_delta : ℚ
  avg_followers : ℚ
  avg_statuses : ℚ
  retweets : ℚ
deriving DecidableEq, Inhabited

/-- Embeds TrendCell.distance: sum of squared differences of the six numeric
fields (the trending label is ignored). -/
def TrendCell.distance (c o : TrendCell) : ℚ :=
  (c.count - o.count) ^ 2 +
  (c.delta - o.delta) ^ 2 +
  (c.delta_delta - o.delta_delta) ^ 2 +
  (c.avg_followers - o.avg_followers) ^ 2 +
  (c.avg_statuses - o.avg_statuses) ^ 2 +
  (c.retweets - o.retweets) ^ 2

/-- Embeds TrendLine (model.py): a named, time-anchored list of cells. -/
structure TrendLine where
  name : String
  start_ts : ℤ
  data : List TrendCell
  window_size : ℤ
deriving DecidableEq, Inhabited

/-- Embeds TrendLine.trending: true if any owned cell has its label set. -/
def TrendLine.trending (t : TrendLine) : Bool :=
  t.data.any (·.trending)

/-- Embeds TrendModel (model.py): the list of all trend lines. -/
structure TrendModel where
  trends : List TrendLine
deriving DecidableEq, Inhabited

/-! ## Full-warp distance (dtw_distance, model.py lines 13-45)

The Python function fills an n x m table.  Row 0 is filled by the loop
`for j in range(n)` (a slip: the loop bound is n, the row has m entries),
so entries of row 0 with n <= j < m keep the value 0 they were initialised
with by np.zeros, and when n > m the same loop raises IndexError at j = m.
The table is embedded row by row with structural recursion; `dtw_distance`
returns none exactly where the Python raises. -/

/-- Row 0 of the table: dtw[0][j].  The accumulation stops at j = n - 1
because the source loop runs `for j in range(n)`; later entries stay 0. -/
def dtwRow0 (a b : List TrendCell) : ℕ → ℚ
  | 0 => 0
  | j + 1 =>
    if j + 1 < a.length then
      (a.getD 0 default).distance (b.getD (j + 1) default) + dtwRow0 a b j
    else 0

/-- Column 0 of the table: dtw[i][0], cumulative distance against b[0]. -/
def dtwCol0 (a b : List TrendCell) : ℕ → ℚ
  | 0 => 0
  | i + 1 => (a.getD (i + 1) default).distance (b.getD 0 default) + dtwCol0 a b i

/-- Row i+1 of the table, given row i as a function: the main double loop
computes dtw[i][j] = d(a[i],b[j]) + min(dtw[i-1][j], dtw[i][j-1],
dtw[i-1][j-1]) for i,j >= 1, and dtw[i][0] comes from the column fill. -/
def dtwRowN (a b : List TrendCell) (i : ℕ) (prevRow : ℕ → ℚ) : ℕ → ℚ
  | 0 => dtwCol0 a b i
  | j + 1 =>
    (a.getD i default).distance (b.getD (j + 1) default) +
      min (min (prevRow (j + 1)) (dtwRowN a b i prevRow j)) (prevRow j)

/-- The final table of dtw_distance, as a function of row and column. -/
def dtwRow (a b : List TrendCell) : ℕ → ℕ → ℚ
  | 0 => dtwRow0 a b
  | i + 1 => dtwRowN a b (i + 1) (dtwRow a b i)

/-- Embeds dtw_distance.  none models the IndexError raised on an empty
input (the assignment dtw[0][0] = 0) and the IndexError raised by the
row-0 loop `for j in range(n)` when n > m (it reads b[j] at j = m). -/
def dtw_distance (a b : List TrendCell) : Option ℚ :=
  if a.length = 0 ∨ b.length = 0 then none
  else if b.length < a.length then none
  else some (dtwRow a b (a.length - 1) (b.length - 1))

/-! ## The cost table the specification describes (claim C3)

Modelled from the spec: "build a cost table D of size n x m where D[0][0]=0,
the first row/column accumulate the cumulative pairwise FeatureCell distance
along one axis, and for i,j>0: D[i][j] = cellDistance(A[i],B[j]) +
min(D[i-1][j], D[i][j-1], D[i-1][j-1]). Result is D[n-1][m-1]."  This is the
reference definition the code is compared against; it differs from dtwRow0
only in accumulating the whole first row. -/

/-- Row 0 of the specification table: cumulative along the whole row. -/
def specRow0 (a b : List TrendCell) : ℕ → ℚ
  | 0 => 0
  | j + 1 => (a.getD 0 default).distance (b.getD (j + 1) default) + specRow0 a b j

/-- Rows i >= 1 of the specification table. -/
def specRowN (a b : List TrendCell) (i : ℕ) (prevRow : ℕ → ℚ) : ℕ → ℚ
  | 0 => dtwCol0 a b i
  | j + 1 =>
    (a.getD i default).distance (b.getD (j + 1) default) +
      min (min (prevRow (j + 1)) (specRowN a b i prevRow j)) (prevRow j)

/-- The specification table. -/
def specRow (a b : List TrendCell) : ℕ → ℕ → ℚ
  | 0 => specRow0 a b
  | i + 1 => specRowN a b (i + 1) (specRow a b i)

/-- The full-warp distance the specification describes: D[n-1][m-1]. -/
def specDtw (a b : List TrendCell) : ℚ :=
  specRow a b (a.length - 1) (b.length - 1)

/-! ## Sliding-offset distance (TrendLine.distance, model.py lines 282-302) -/

/-- Python min over a list built with a None start: none on an empty list. -/
def pyMinList (l : List ℚ) : Option ℚ :=
  match l with
  | [] => none
  | x :: xs => some (xs.foldl min x)

/-- One offset total of the sliding alignment: the inner loop
`for i in range(len(self.data)): total += self.data[i].distance(other.data[offset + i])`. -/
def offsetTotal (a b : List TrendCell) (off : ℕ) : ℚ :=
  (List.range a.length).foldl
    (fun total i => total + (a.getD i default).distance (b.getD (off + i) default)) 0

/-- The minimum over all offsets, for a at most as long as b. -/
def slidingMin (a b : List TrendCell) : Option ℚ :=
  pyMinList ((List.range (b.length - a.length + 1)).map (offsetTotal a b))

/-- Embeds TrendLine.distance.  The source swaps the arguments once when
self is longer than other and otherwise scans all offsets; the single
recursive swap is unfolded here. -/
def TrendLine.distance (x y : TrendLine) : Option ℚ :=
  if y.data.length < x.data.length then slidingMin y.data x.data
  else slidingMin x.data y.data

/-! ## Normalization (TrendModel.normalize, model.py lines 174-197) -/

/-- Python max over a list of numbers; the empty case raises ValueError and
is only reached behind the isEmpty guard in normalizeLine. -/
def listMax (l : List ℚ) : ℚ :=
  match l with
  | [] => 0
  | x :: xs => xs.foldl max x

/-- A divisor as normalize computes it: the field maximum, floored to 1 when
the maximum is 0. -/
def normDivisor (l : List ℚ) : ℚ :=
  if listMax l = 0 then 1 else listMax l

/-- The inner normalize loop body: divide the five normalized fields of a
cell by the per-line divisors (retweets is left untouched). -/
def normCell (mc md mdd mf ms : ℚ) (c : TrendCell) : TrendCell :=
  { c with
    count := c.count / mc
    delta := c.delta / md
    delta_delta := c.delta_delta / mdd
    avg_followers := c.avg_followers / mf
    avg_statuses := c.avg_statuses / ms }

/-- Embeds the body of the normalize loop for one trend line: divide count,
delta, delta_delta, avg_followers and avg_statuses of every cell by the
per-line maximum of that field (retweets is left untouched).  none models
the ValueError of max([]) on a line without cells. -/
def normalizeLine (t : TrendLine) : Option TrendLine :=
  if t.data.isEmpty then none
  else
    some { t with data := t.data.map (normCell
      (normDivisor (t.data.map (·.count)))
      (normDivisor (t.data.map (·.delta)))
      (normDivisor (t.data.map (·.delta_delta)))
      (normDivisor (t.data.map (·.avg_followers)))
      (normDivisor (t.data.map (·.avg_statuses)))) }

/-- Embeds TrendModel.normalize, over every line of the model. -/
def TrendModel.normalize (m : TrendModel) : Option TrendModel :=
  (m.trends.mapM normalizeLine).map TrendModel.mk

/-! ## Construction pipeline step (TrendModel.model_from_files, lines 224-233) -/

/-- Number of lead-in windows prepended to each positive trend. -/
def TREND_PREEMT : ℕ := 90

/-- Shortest positive trend to allow. -/
def MINIMUM_TREND_SIZE : ℕ := 15

/-- TrendCell(False): label false, every numeric feature zero. -/
def leadInCell : TrendCell := ⟨false, 0, 0, 0, 0, 0, 0⟩

/-- Embeds the body of the preemption loop: TREND_PREEMT cells TrendCell(False)
are prepended to the data and start_ts is moved back by window_size * TREND_PREEMT. -/
def preemptTrend (t : TrendLine) : TrendLine :=
  { t with
    data := List.replicate TREND_PREEMT leadInCell ++ t.data
    start_ts := t.start_ts - t.window_size * (TREND_PREEMT : ℤ) }

/-- Embeds the two construction-pipeline statements of model_from_files that
claim C7 is about: the comprehension keeping trends with
len(trend.data) >= MINIMUM_TREND_SIZE, then the preemption loop. -/
def filterShortAndPreempt (ts : List TrendLine) : List TrendLine :=
  (ts.filter (fun t => decide (MINIMUM_TREND_SIZE ≤ t.data.length))).map preemptTrend

/-! ## Population pass 2 (TrendLine.populate_from_file, lines 384-407)

Pass 1 reads the tweet file (excluded I/O); pass 2 is the per-line loop that
divides the accumulated totals and fills delta / delta_delta.  The loop
mutates cells in place and reads trend.data[index - 1] after it has been
updated, so the embedding carries the previously written cell. -/

/-- The division step of pass 2: for a cell with count > 0, turn the
accumulated follower/status/retweet totals into averages. -/
def divStep (c : TrendCell) : TrendCell :=
  if 0 < c.count then
    { c with
      avg_followers := c.avg_followers / c.count
      avg_statuses := c.avg_statuses / c.count
      retweets := c.retweets / c.count }
  else c

/-- The first-window branch of pass 2: delta and delta_delta are set to 0. -/
def firstStep (c : TrendCell) : TrendCell :=
  { divStep c with delta := 0, delta_delta := 0 }

/-- The second-window branch: delta is the count difference from the
previously written cell, delta_delta is 0. -/
def secondStep (prev c : TrendCell) : TrendCell :=
  { divStep c with delta := (divStep c).count - prev.count, delta_delta := 0 }

/-- The remaining-window branch: delta is the count difference from the
previously written cell, delta_delta the difference of the two deltas
(datum.delta was just assigned, prev.delta was updated one step earlier). -/
def steadyStep (prev c : TrendCell) : TrendCell :=
  { divStep c with delta := (divStep c).count - prev.count,
                   delta_delta := ((divStep c).count - prev.count) - prev.delta }

/-- Embeds the pass-2 loop.  first / second are the loop flags of the source;
prev is the cell written at the previous index (unused while first is true). -/
def pass2Go : List TrendCell → Bool → Bool → TrendCell → List TrendCell
  | [], _, _, _ => []
  | c :: rest, first, second, prev =>
    let c2 :=
      if first then firstStep c
      else if second then secondStep prev c
      else steadyStep prev c
    c2 :: pass2Go rest false first c2

/-- Pass 2 on one line: the loop starts with first = True, second = False. -/
def pass2 (cells : List TrendCell) : List TrendCell :=
  pass2Go cells true false default

/-! ## Longest-run extraction (TrendLine.from_twitter_trend, lines 410-445) -/

/-- One iteration of the from_twitter_trend scan.  State:
(start_longest, longest_consecutive, start_consecutive, current_consecutive,
last_timestamp), exactly the five locals of the source. -/
def fttStep (ws : ℤ) (st : Option ℤ × ℕ × Option ℤ × ℕ × Option ℤ) (ts : ℤ) :
    Option ℤ × ℕ × Option ℤ × ℕ × Option ℤ :=
  let (sl, lc, sc, cc, last) := st
  let (sl, lc, sc, cc) :=
    match sc with
    | none => (sl, lc, some ts, 1)
    | some s =>
      -- last_timestamp is always set here; getD 0 is unreachable
      if ts = last.getD 0 + ws then (sl, lc, some s, cc + 1)
      else
        match sl with
        | none => (some s, cc, some s, cc)
        | some L =>
          if lc < cc then (some s, cc, some s, cc)
          else (some L, lc, none, 0)
  (sl, lc, sc, cc, some ts)

/-- Embeds TrendLine.from_twitter_trend: scan the timestamps, then build
longest_consecutive cells TrendCell(True); the returned start timestamp is
start_longest (None when it was never assigned). -/
def from_twitter_trend (timestamps : List ℤ) (ws : ℤ) : Option ℤ × List TrendCell :=
  let (sl, lc, _, _, _) := timestamps.foldl (fttStep ws) (none, 0, none, 0, none)
  (sl, List.replicate lc ⟨true, 0, 0, 0, 0, 0, 0⟩)

/-! ## Persisted representation (from_obj, model.py lines 199-205, 311-320, 490-497)

A persisted object is a dict; obj.get(key) is None exactly when the key is
missing, so each level is modelled as a record of Option fields.  Reading
obj[key] on a missing key raises KeyError, modelled as Except.error.  A line
rebuilt from a dict stores the raw results of TrendCell.from_obj (which may
be None), hence the Option-valued cell list in RLine. -/

structure PCell where
  trending : Option Bool
  count : Option ℚ
  delta : Option ℚ
  delta_delta : Option ℚ
  avg_followers : Option ℚ
  avg_statuses : Option ℚ
  retweets : Option ℚ
deriving DecidableEq, Inhabited

structure PLine where
  name : Option String
  start_ts : Option ℤ
  window_size : Option ℤ
  data : Option (List PCell)
deriving DecidableEq, Inhabited

structure PModel where
  trends : Option (List PLine)
deriving DecidableEq, Inhabited

/-- A TrendLine as rebuilt by TrendLine.from_obj: its data list keeps the
possibly-None results of TrendCell.from_obj. -/
structure RLine where
  name : String
  start_ts : ℤ
  data : List (Option TrendCell)
  window_size : ℤ
deriving DecidableEq, Inhabited

/-- A TrendModel as rebuilt by TrendModel.from_obj. -/
structure RModel where
  trends : List (Option RLine)
deriving DecidableEq, Inhabited

/-- Embeds TrendCell.from_obj: only trending, count, delta and delta_delta
are checked with .get before the constructor call indexes all seven keys,
so a missing avg_followers, avg_statuses or retweets raises KeyError. -/
def TrendCell.from_obj (o : PCell) : Except Unit (Option TrendCell) :=
  match o.trending, o.count, o.delta, o.delta_delta with
  | some tr, some c, some d, some dd =>
    match o.avg_followers, o.avg_statuses, o.retweets with
    | some f, some s, some r => .ok (some ⟨tr, c, d, dd, f, s, r⟩)
    | _, _, _ => .error ()
  | _, _, _, _ => .ok none

/-- Embeds TrendLine.from_obj: all four keys are checked; the data
comprehension propagates a KeyError raised by a cell. -/
def TrendLine.from_obj (o : PLine) : Except Unit (Option RLine) :=
  match o.name, o.window_size, o.data, o.start_ts with
  | some n, some w, some d, some s => do
    let cells ← d.mapM TrendCell.from_obj
    .ok (some ⟨n, s, cells, w⟩)
  | _, _, _, _ => .ok none

/-- Embeds TrendModel.from_obj: only the trends key is checked. -/
def TrendModel.from_obj (o : PModel) : Except Unit (Option RModel) :=
  match o.trends with
  | some ts => do
    let ls ← ts.mapM TrendLine.from_obj
    .ok (some ⟨ls⟩)
  | none => .ok none

/-! ## Negative trend names (BagOfWords.random_trend_names, twitter.py 95-121)

The Counter is modelled as an insertion-ordered list of (word, weight);
most_common(1) is the first entry of maximal weight (heapq.nlargest keeps
insertion order on ties).  The positive_trends argument the pipeline passes
(construct_negative_trends, model.py line 343) is the list of TrendLine
objects themselves, and Python equality between a str and a TrendLine is
always False, so the membership test never excludes anything. -/

abbrev Bag := List (String × ℕ)

/-- most_common(1)[0]: the first entry with maximal weight; none models the
IndexError on an empty counter. -/
def mostCommon1 (bag : Bag) : Option (String × ℕ) :=
  match bag with
  | [] => none
  | x :: xs => some (xs.foldl (fun b y => if b.2 < y.2 then y else b) x)

/-- self[word] = 0: zero the weight of a word, keeping insertion order. -/
def setZero (bag : Bag) (w : String) : Bag :=
  bag.map (fun p => if p.1 = w then (p.1, 0) else p)

/-- The test `new_trend not in positive_trends` negated: a str is compared
with == against TrendLine objects, which is always False in Python. -/
def strInTrendLines (_w : String) (ts : List TrendLine) : Bool :=
  ts.any (fun _t => false)

/-- The inner `while True` loop: repeatedly take the most common word, zero
its weight, and stop when it passes both membership tests.  The fuel bounds
the loop; bag.length + 1 iterations suffice for every terminating run, and
none models a run that never terminates (or most_common on an empty bag). -/
def pickLoop : ℕ → Bag → List TrendLine → List String → Option (String × Bag)
  | 0, _, _, _ => none
  | fuel + 1, bag, positives, negatives =>
    match mostCommon1 bag with
    | none => none
    | some (w, _cnt) =>
      let bag1 := setZero bag w
      if strInTrendLines w positives = false ∧ negatives.contains w = false then
        some (w, bag1)
      else pickLoop fuel bag1 positives negatives

/-- Embeds BagOfWords.random_trend_names: n rounds of the pick loop, the
chosen names accumulated as an (insertion-ordered) set. -/
def random_trend_names (bag : Bag) (positives : List TrendLine) (n : ℕ) :
    Option (List String) := do
  let st ← (List.range n).foldlM
    (fun (st : Bag × List String) _i => do
      let (b, negatives) := st
      let (w, b1) ← pickLoop (b.length + 1) b positives negatives
      pure (b1, negatives ++ [w]))
    (bag, ([] : List String))
  pure st.2

/-! ## Leave-one-out evaluation (TrendModel.leave_one_out, lines 105-152)

The source builds y with `1 if trend.data.trending else 0`; trend.data is a
plain list, which has no attribute trending, so this raises AttributeError
for the very first trend.  The attribute access is modelled by
listTrendingAttr and the rest of the loop is embedded behind it. -/

/-- The attribute access trend.data.trending: a Python list has no attribute
trending, so the access always raises AttributeError, modelled as none. -/
def listTrendingAttr (_cells : List TrendCell) : Option Bool := none

/-- The inner match scan of leave_one_out for row i: the running pair
(match, min_distance), updated when dist < min_distance; dtw_distance
failures propagate. -/
def bestMatch (mat : List (List TrendCell)) (i : ℕ) : Option (Option ℕ) :=
  ((List.range mat.length).foldlM
    (fun (st : Option (ℕ × ℚ)) j =>
      if i = j then some st
      else do
        let dist ← dtw_distance (mat.getD i []) (mat.getD j [])
        match st with
        | none => some (some (j, dist))
        | some (mj, md) =>
          if dist < md then some (some (j, dist)) else some (some (mj, md)))
    none).map (Option.map Prod.fst)

/-- Embeds TrendModel.leave_one_out: normalize, build y from
trend.data.trending, scan every row for its nearest match, classify, and
divide.  none models every exception of the source (the AttributeError in
y, dtw failures, y[None], and ZeroDivisionError on the final divisions). -/
def TrendModel.leave_one_out (m : TrendModel) : Option (ℚ × ℚ) := do
  let m1 ← m.normalize
  let mat := m1.trends.map (·.data)
  let y ← m1.trends.mapM (fun t => do
    let b ← listTrendingAttr t.data
    pure (if b then (1 : ℕ) else 0))
  let counts ← (List.range mat.length).foldlM
    (fun (c : ℕ × ℕ × ℕ × ℕ) i => do
      let (tp, tn, fp, fn1) := c
      let st ← bestMatch mat i
      let mj ← st
      let ai := y.getD i 0
      let mtr := y.getD mj 0
      if ai = 1 ∧ mtr = 1 then pure (tp + 1, tn, fp, fn1)
      else if ai = 1 ∧ mtr = 0 then pure (tp, tn, fp, fn1 + 1)
      else if ai = 0 ∧ mtr = 1 then pure (tp, tn, fp + 1, fn1)
      else pure (tp, tn + 1, fp, fn1))
    (0, 0, 0, 0)
  let (tp, _tn, fp, fn1) := counts
  if tp + fp = 0 then none
  else if tp + fn1 = 0 then none
  else some ((tp : ℚ) / ((tp : ℚ) + (fp : ℚ)), (tp : ℚ) / ((tp : ℚ) + (fn1 : ℚ)))

/-! ## Definitions supporting the proofs -/

/-- The cumulative distance along the diagonal of the dtw table, cells 1..i
(used to bound the table entries for claim C5). -/
def diagSum (a b : List TrendCell) : ℕ → ℚ
  | 0 => 0
  | i + 1 => diagSum a b i + (a.getD (i + 1) default).distance (b.getD (i + 1) default)

/-! ## Concrete inputs used by counterexamples and witnesses -/

/-- A cell with every numeric feature zero. -/
def cellZ : TrendCell := ⟨false, 0, 0, 0, 0, 0, 0⟩

/-- A cell with count 1, every other feature zero. -/
def cellOne : TrendCell := ⟨false, 1, 0, 0, 0, 0, 0⟩

/-- A cell with count 2, every other feature zero. -/
def cellTwo : TrendCell := ⟨false, 2, 0, 0, 0, 0, 0⟩

/-- A cell with delta -1: deltas go negative whenever counts decrease. -/
def cellNegDelta : TrendCell := ⟨false, 0, -1, 0, 0, 0, 0⟩

/-- A line whose first cell has a negative delta. -/
def ceLine : TrendLine := ⟨"ce", 0, [cellNegDelta, cellZ], 120⟩

/-- A one-line model exhibiting the normalization counterexample. -/
def ceModel : TrendModel := ⟨[ceLine]⟩

/-- A two-cell line (for the distance counterexamples). -/
def xLine : TrendLine := ⟨"x", 0, [cellZ, cellOne], 120⟩

/-- A three-cell line (for the distance counterexamples). -/
def yLine : TrendLine := ⟨"y", 0, [cellZ, cellOne, cellTwo], 120⟩

/-- A one-cell line (for the asymmetry counterexample). -/
def shortLine : TrendLine := ⟨"s", 0, [cellZ], 120⟩

/-- A two-cell line with counts 1 and 2 (equal length to xLine). -/
def zLineC5 : TrendLine := ⟨"z", 0, [cellOne, cellTwo], 120⟩

/-- A 15-cell line that survives the length filter. -/
def longLine : TrendLine := ⟨"long", 1000, List.replicate 15 cellOne, 120⟩

/-- A positive trend line named foo. -/
def fooLine : TrendLine := ⟨"foo", 0, [], 120⟩

/-- A trending line with one cell. -/
def pLineW : TrendLine := ⟨"p", 0, [⟨true, 1, 0, 0, 0, 0, 0⟩], 120⟩

/-- A non-trending line with one cell. -/
def nLineW : TrendLine := ⟨"n", 0, [cellOne], 120⟩

/-- Three accumulated cells with counts 2, 1, 4 (for the pass-2 witness). -/
def cellsW : List TrendCell :=
  [⟨false, 2, 0, 0, 4, 6, 1⟩, ⟨false, 1, 0, 0, 0, 0, 0⟩, ⟨true, 4, 0, 0, 8, 0, 2⟩]

/-- A one-line model with nonnegative features (counts 1 and 2). -/
def mW : TrendModel := ⟨[⟨"w", 0, [cellOne, cellTwo], 120⟩]⟩

/-- The expected normalization of mW: counts divided by 2. -/
def mW1 : TrendModel := ⟨[⟨"w", 0,
  [⟨false, 1/2, 0, 0, 0, 0, 0⟩, ⟨false, 1, 0, 0, 0, 0, 0⟩], 120⟩]⟩

/-- A persisted cell whose four checked keys are present but whose
avg_followers key is missing. -/
def cePCell : PCell := ⟨some false, some 0, some 0, some 0, none, some 0, some 0⟩

/-! ## Shared helper lemmas -/

/-- The cell distance is symmetric: every summand is a squared difference. -/
theorem TrendCell.distance_comm (c o : TrendCell) : c.distance o = o.distance c := by
  unfold TrendCell.distance
  ring

/-- The cell distance is a sum of squares, hence nonnegative. -/
theorem TrendCell.distance_nonneg (c o : TrendCell) : 0 ≤ c.distance o := by
  unfold TrendCell.distance
  positivity

theorem le_foldl_max (xs : List ℚ) (x : ℚ) : x ≤ xs.foldl max x := by
  induction xs generalizing x with
  | nil => exact le_refl x
  | cons y ys ih => exact le_trans (le_max_left x y) (ih (max x y))

theorem mem_le_foldl_max (xs : List ℚ) (x v : ℚ) (h : v ∈ xs) : v ≤ xs.foldl max x := by
  induction xs generalizing x with
  | nil => cases h
  | cons y ys ih =>
    rcases List.mem_cons.mp h with rfl | hv
    · exact le_trans (le_max_right x v) (le_foldl_max ys (max x v))
    · exact ih (max x y) hv

theorem foldl_max_mem (xs : List ℚ) (x : ℚ) : xs.foldl max x = x ∨ xs.foldl max x ∈ xs := by
  induction xs generalizing x with
  | nil => exact Or.inl rfl
  | cons y ys ih =>
    rcases ih (max x y) with h | h
    · rcases max_choice x y with hm | hm
      · exact Or.inl (h.trans hm)
      · exact Or.inr (List.mem_cons.mpr (Or.inl (h.trans hm)))
    · exact Or.inr (List.mem_cons.mpr (Or.inr h))

/-- Every member is at most the Python max of the list. -/
theorem le_listMax {l : List ℚ} {v : ℚ} (h : v ∈ l) : v ≤ listMax l := by
  match l with
  | [] => cases h
  | x :: xs =>
    unfold listMax
    rcases List.mem_cons.mp h with rfl | hv
    · exact le_foldl_max xs v
    · exact mem_le_foldl_max xs x v hv

/-- The Python max of a nonempty list is one of its members. -/
theorem listMax_mem {l : List ℚ} (h : l ≠ []) : listMax l ∈ l := by
  match l with
  | [] => exact absurd rfl h
  | x :: xs =>
    show xs.foldl max x ∈ x :: xs
    rcases foldl_max_mem xs x with hm | hm
    · rw [hm]; exact List.mem_cons_self x xs
    · exact List.mem_cons.mpr (Or.inr hm)

theorem mapM_some_length {α β : Type} (f : α → Option β) :
    ∀ {l : List α} {l' : List β}, l.mapM f = some l' → l'.length = l.length := by
  intro l
  induction l with
  | nil =>
    intro l' h
    simp only [List.mapM_nil, Option.pure_def, Option.some.injEq] at h
    simp [← h]
  | cons a as ih =>
    intro l' h
    rw [List.mapM_cons] at h
    cases hfa : f a with
    | none => rw [hfa] at h; simp at h
    | some b =>
      rw [hfa] at h
      cases hrest : as.mapM f with
      | none => rw [hrest] at h; simp at h
      | some bs =>
        rw [hrest] at h
        simp at h
        simp [← h, ih hrest]

theorem mapM_some_mem {α β : Type} (f : α → Option β) :
    ∀ {l : List α} {l' : List β} {b : β},
      l.mapM f = some l' → b ∈ l' → ∃ a ∈ l, f a = some b := by
  intro l
  induction l with
  | nil =>
    intro l' b h hb
    simp only [List.mapM_nil, Option.pure_def, Option.some.injEq] at h
    rw [← h] at hb
    cases hb
  | cons a as ih =>
    intro l' b h hb
    rw [List.mapM_cons] at h
    cases hfa : f a with
    | none => rw [hfa] at h; simp at h
    | some b0 =>
      rw [hfa] at h
      cases hrest : as.mapM f with
      | none => rw [hrest] at h; simp at h
      | some bs =>
        rw [hrest] at h
        simp at h
        rw [← h] at hb
        rcases List.mem_cons.mp hb with rfl | hbs
        · exact ⟨a, List.mem_cons_self a as, hfa⟩
        · rcases ih hrest hbs with ⟨a1, ha1, hfa1⟩
          exact ⟨a1, List.mem_cons.mpr (Or.inr ha1), hfa1⟩

theorem mapM_none_of_none {α β : Type} (f : α → Option β) (hf : ∀ a, f a = none) :
    ∀ {l : List α}, l ≠ [] → l.mapM f = none := by
  intro l h
  match l with
  | [] => exact absurd rfl h
  | a :: as => rw [List.mapM_cons, hf a]; rfl

/-! ## Claim C3 -/

/-- Claim C3 (code_bug): the spec says dtw_distance returns D[n-1][m-1] of the
table whose first row accumulates the cumulative cell distance along its
axis.  On A = [cellZ] (n = 1) and B = [cellZ, cellOne] (m = 2) the code
returns 0 while the specified table yields 1: the row-0 fill loop runs
`for j in range(n)` instead of range(m), so D[0][1] is never written. -/
theorem dtw_distance_misses_spec_table :
    dtw_distance [cellZ] [cellZ, cellOne] = some 0 ∧
    specDtw [cellZ] [cellZ, cellOne] = 1 := by
  constructor
  · decide
  · norm_num [specDtw, specRow, specRow0, TrendCell.distance, cellZ, cellOne]

/-! ## Claim C6 -/

/-- Claim C6 (code_bug): for the timestamps [0, 120, 240] (a single run of
three consecutive windows, window_size 120) the claim requires a line of 3
all-true cells starting at 0, but from_twitter_trend returns no start
timestamp and zero cells: the scan only records a run when a later
non-consecutive timestamp arrives, so the final run is never flushed. -/
theorem from_twitter_trend_drops_final_run :
    (from_twitter_trend [0, 120, 240] 120).1 = none ∧
    (from_twitter_trend [0, 120, 240] 120).2.length = 0 := by
  decide

/-! ## Claim C10 -/

/-- Claim C10 (code_bug): with the word model {foo: 5, bar: 3} and the single
positive trend line named foo, random_trend_names returns exactly [foo],
which equals the positive trend name: the exclusion test compares the
candidate string against TrendLine objects, never against their names, so
it excludes nothing. -/
theorem random_trend_names_collides_with_positive :
    random_trend_names [("foo", 5), ("bar", 3)] [fooLine] 1 = some ["foo"] ∧
    fooLine.name = "foo" := by
  decide

/-! ## Claim C9 -/

/-- Claim C9 counterexample: a persisted cell with its four checked keys
present but avg_followers missing makes TrendCell.from_obj raise KeyError
(the constructor call indexes the three unchecked keys directly) instead of
returning the explicit absent result the claim requires. -/
theorem from_obj_keyerror_counterexample :
    TrendCell.from_obj cePCell = .error () := by
  rfl

/-! ## Claim C4 counterexample -/

/-- Claim C4 counterexample: on the nonempty lines shortLine (1 cell) and
xLine (2 cells) the full-warp distance is not symmetric: one direction
returns 0 and the swapped direction raises IndexError (the row-0 loop
`for j in range(n)` indexes b[j] past the end when n > m). -/
theorem dtw_asymmetry_counterexample :
    dtw_distance shortLine.data xLine.data = some 0 ∧
    dtw_distance xLine.data shortLine.data = none := by
  decide

/-! ## Claim C5 counterexample -/

/-- Claim C5 counterexample: on xLine = [cellZ, cellOne] and
yLine = [cellZ, cellOne, cellTwo] the full-warp distance is 1 while the
sliding-offset distance is 0 (offset 0 aligns both cells exactly), so the
claimed bound warp <= slidingOffset fails. -/
theorem dtw_exceeds_sliding_counterexample :
    dtw_distance xLine.data yLine.data = some 1 ∧
    TrendLine.distance xLine yLine = some 0 ∧
    ¬ ((1 : ℚ) ≤ 0) := by
  refine ⟨?_, ?_, by norm_num⟩
  · norm_num [dtw_distance, dtwRow, dtwRowN, dtwRow0, dtwCol0, TrendCell.distance,
      xLine, yLine, cellZ, cellOne, cellTwo]
  · norm_num [TrendLine.distance, slidingMin, pyMinList, offsetTotal, TrendCell.distance,
      xLine, yLine, cellZ, cellOne, cellTwo, List.range_succ]

/-! ## Claim C1 counterexample -/

/-- Claim C1 counterexample: ceModel has one line whose cells carry deltas
-1 and 0.  The per-field maxima are all 0, so every divisor is floored to 1
and normalize returns the model unchanged; the first cell keeps delta = -1,
which does not lie in [0, 1]. -/
theorem normalize_negative_delta_counterexample :
    TrendModel.normalize ceModel = some ceModel ∧
    ∃ t ∈ ceModel.trends, ∃ c ∈ t.data, c.delta < 0 := by
  constructor
  · norm_num [TrendModel.normalize, normalizeLine, normCell, normDivisor, listMax,
      ceModel, ceLine, cellNegDelta, cellZ, List.mapM, List.mapM.loop]
  · exact ⟨ceLine, by simp [ceModel], cellNegDelta, by simp [ceLine], by norm_num [cellNegDelta]⟩

/-! ## Claim C7 -/

/-- Claim C7 (confirmed): in the construction pipeline, every line surviving
filterShortAndPreempt stems from an input line with at least
MINIMUM_TREND_SIZE = 15 cells (shorter lines are dropped), carries exactly
TREND_PREEMT = 90 prepended lead-in cells (label false, all features zero)
followed by the original cells in order, and has its start_ts decreased by
window_size * 90; conversely every input line with at least 15 cells
survives in that padded form. -/
theorem filter_preempt_spec (ts : List TrendLine) :
    (∀ t' ∈ filterShortAndPreempt ts, ∃ t ∈ ts,
        MINIMUM_TREND_SIZE ≤ t.data.length ∧
        t'.name = t.name ∧ t'.window_size = t.window_size ∧
        t'.data.length = TREND_PREEMT + t.data.length ∧
        t'.data.take TREND_PREEMT = List.replicate TREND_PREEMT leadInCell ∧
        t'.data.drop TREND_PREEMT = t.data ∧
        t'.start_ts = t.start_ts - t.window_size * (TREND_PREEMT : ℤ)) ∧
    (∀ t ∈ ts, MINIMUM_TREND_SIZE ≤ t.data.length →
        preemptTrend t ∈ filterShortAndPreempt ts) := by
  constructor
  · intro t' ht'
    unfold filterShortAndPreempt at ht'
    rcases List.mem_map.mp ht' with ⟨t, htf, rfl⟩
    have hmem := List.mem_filter.mp htf
    refine ⟨t, hmem.1, by simpa using hmem.2, rfl, rfl, ?_, ?_, ?_, rfl⟩
    · simp [preemptTrend, Nat.add_comm]
    · show (List.replicate TREND_PREEMT leadInCell ++ t.data).take TREND_PREEMT =
        List.replicate TREND_PREEMT leadInCell
      exact List.take_left' (by simp)
    · show (List.replicate TREND_PREEMT leadInCell ++ t.data).drop TREND_PREEMT = t.data
      exact List.drop_left' (by simp)
  · intro t ht hlen
    unfold filterShortAndPreempt
    exact List.mem_map_of_mem _ (List.mem_filter.mpr ⟨ht, by simpa using hlen⟩)

/-- Witness for claim C7 at a concrete input: the 15-cell longLine survives
filtering (while the 1-cell shortLine does not pass the hypothesis). -/
theorem filter_preempt_spec_witness :
    MINIMUM_TREND_SIZE ≤ longLine.data.length ∧
    preemptTrend longLine ∈ filterShortAndPreempt [shortLine, longLine] :=
  ⟨by decide, (filter_preempt_spec [shortLine, longLine]).2 longLine (by decide) (by decide)⟩

/-! ## Claim C8 -/

theorem pass2Go_length (cells : List TrendCell) :
    ∀ (f s : Bool) (p : TrendCell), (pass2Go cells f s p).length = cells.length := by
  induction cells with
  | nil => intro f s p; rfl
  | cons c rest ih => intro f s p; simp only [pass2Go, List.length_cons, ih]

/-- In the steady state (both flags false) every output cell is the steady
step applied to the previously written cell and the current input cell. -/
theorem pass2Go_steady :
    ∀ (cells : List TrendCell) (p : TrendCell) (i : ℕ), i < cells.length →
      (pass2Go cells false false p).getD i default =
        steadyStep (if i = 0 then p else (pass2Go cells false false p).getD (i - 1) default)
          (cells.getD i default) := by
  intro cells
  induction cells with
  | nil => intro p i h; simp at h
  | cons c rest ih =>
    intro p i h
    match i with
    | 0 => simp [pass2Go]
    | 1 =>
      have h0 : 0 < rest.length := by simpa using h
      simpa [pass2Go] using ih (steadyStep p c) 0 h0
    | (k + 2) =>
      have hk : k + 1 < rest.length := by
        simp only [List.length_cons] at h
        omega
      simpa [pass2Go] using ih (steadyStep p c) (k + 1) hk

/-- Structural characterization of pass 2: the first cell goes through
firstStep, the second through secondStep against the written first cell,
every later cell through steadyStep against its written predecessor. -/
theorem pass2_getD (cells : List TrendCell) (i : ℕ) (h : i < cells.length) :
    (pass2 cells).getD i default =
      if i = 0 then firstStep (cells.getD 0 default)
      else if i = 1 then
        secondStep ((pass2 cells).getD 0 default) (cells.getD 1 default)
      else steadyStep ((pass2 cells).getD (i - 1) default) (cells.getD i default) := by
  match cells with
  | [] => simp at h
  | c :: rest =>
    match i with
    | 0 => simp [pass2, pass2Go]
    | (k + 1) =>
      match rest with
      | [] => simp at h
      | c1 :: rest2 =>
        match k with
        | 0 => simp [pass2, pass2Go]
        | (j + 1) =>
          have hj : j < rest2.length := by simpa using h
          have hs := pass2Go_steady rest2 (secondStep (firstStep c) c1) j hj
          match j with
          | 0 => simpa [pass2, pass2Go] using hs
          | (j1 + 1) => simpa [pass2, pass2Go] using hs

theorem divStep_count (c : TrendCell) : (divStep c).count = c.count := by
  unfold divStep; split <;> rfl

theorem divStep_trending (c : TrendCell) : (divStep c).trending = c.trending := by
  unfold divStep; split <;> rfl

/-- Count and trending are untouched by pass 2. -/
theorem pass2_count (cells : List TrendCell) (i : ℕ) (h : i < cells.length) :
    ((pass2 cells).getD i default).count = (cells.getD i default).count ∧
    ((pass2 cells).getD i default).trending = (cells.getD i default).trending := by
  rw [pass2_getD cells i h]
  match i with
  | 0 => simp [firstStep, divStep_count, divStep_trending]
  | 1 => simp [secondStep, divStep_count, divStep_trending]
  | (k + 2) => simp [steadyStep, divStep_count, divStep_trending]

theorem divStep_avg_followers (c : TrendCell) : (divStep c).avg_followers =
    if 0 < c.count then c.avg_followers / c.count else c.avg_followers := by
  unfold divStep; split <;> simp [*]

theorem divStep_avg_statuses (c : TrendCell) : (divStep c).avg_statuses =
    if 0 < c.count then c.avg_statuses / c.count else c.avg_statuses := by
  unfold divStep; split <;> simp [*]

theorem divStep_retweets (c : TrendCell) : (divStep c).retweets =
    if 0 < c.count then c.retweets / c.count else c.retweets := by
  unfold divStep; split <;> simp [*]

/-- Claim C8 (confirmed): pass 2 leaves trending and count untouched;
a cell with count > 0 has its accumulated follower, status and retweet
totals divided by count (count = 0 cells keep them undivided); the first
cell's delta and delta_delta are 0; the second cell's delta is
count[1] - count[0] with delta_delta 0; and every later cell's delta is its
count minus its predecessor's count while its delta_delta is its (new)
delta minus its predecessor's (new) delta. -/
theorem pass2_spec (cells : List TrendCell) (i : ℕ) (h : i < cells.length) :
    ((pass2 cells).getD i default).trending = (cells.getD i default).trending ∧
    ((pass2 cells).getD i default).count = (cells.getD i default).count ∧
    ((pass2 cells).getD i default).avg_followers =
      (if 0 < (cells.getD i default).count then
        (cells.getD i default).avg_followers / (cells.getD i default).count
      else (cells.getD i default).avg_followers) ∧
    ((pass2 cells).getD i default).avg_statuses =
      (if 0 < (cells.getD i default).count then
        (cells.getD i default).avg_statuses / (cells.getD i default).count
      else (cells.getD i default).avg_statuses) ∧
    ((pass2 cells).getD i default).retweets =
      (if 0 < (cells.getD i default).count then
        (cells.getD i default).retweets / (cells.getD i default).count
      else (cells.getD i default).retweets) ∧
    ((pass2 cells).getD i default).delta =
      (if i = 0 then 0
       else (cells.getD i default).count - (cells.getD (i - 1) default).count) ∧
    ((pass2 cells).getD i default).delta_delta =
      (if i ≤ 1 then 0
       else ((pass2 cells).getD i default).delta -
         ((pass2 cells).getD (i - 1) default).delta) := by
  refine ⟨(pass2_count cells i h).2, (pass2_count cells i h).1, ?_⟩
  match i with
  | 0 =>
    rw [pass2_getD cells 0 h]
    simp [firstStep, divStep_avg_followers, divStep_avg_statuses, divStep_retweets]
  | 1 =>
    have h0 : 0 < cells.length := by omega
    have hc0 := (pass2_count cells 0 h0).1
    simp only [List.getD_eq_getElem?_getD] at hc0
    rw [pass2_getD cells 1 h]
    simp [secondStep, divStep_avg_followers, divStep_avg_statuses, divStep_retweets,
      divStep_count, hc0]
  | (k + 2) =>
    have hk : k + 1 < cells.length := by omega
    have hck := (pass2_count cells (k + 1) hk).1
    simp only [List.getD_eq_getElem?_getD] at hck
    rw [pass2_getD cells (k + 2) h]
    simp [steadyStep, divStep_avg_followers, divStep_avg_statuses, divStep_retweets,
      divStep_count, hck]

/-- Witness for claim C8 at index 2 of a concrete three-cell line. -/
theorem pass2_spec_witness :
    2 < cellsW.length ∧
    (((pass2 cellsW).getD 2 default).trending = (cellsW.getD 2 default).trending ∧
     ((pass2 cellsW).getD 2 default).count = (cellsW.getD 2 default).count ∧
     ((pass2 cellsW).getD 2 default).avg_followers =
       (if 0 < (cellsW.getD 2 default).count then
         (cellsW.getD 2 default).avg_followers / (cellsW.getD 2 default).count
       else (cellsW.getD 2 default).avg_followers) ∧
     ((pass2 cellsW).getD 2 default).avg_statuses =
       (if 0 < (cellsW.getD 2 default).count then
         (cellsW.getD 2 default).avg_statuses / (cellsW.getD 2 default).count
       else (cellsW.getD 2 default).avg_statuses) ∧
     ((pass2 cellsW).getD 2 default).retweets =
       (if 0 < (cellsW.getD 2 default).count then
         (cellsW.getD 2 default).retweets / (cellsW.getD 2 default).count
       else (cellsW.getD 2 default).retweets) ∧
     ((pass2 cellsW).getD 2 default).delta =
       (if (2 : ℕ) = 0 then 0
        else (cellsW.getD 2 default).count - (cellsW.getD 1 default).count) ∧
     ((pass2 cellsW).getD 2 default).delta_delta =
       (if (2 : ℕ) ≤ 1 then 0
        else ((pass2 cellsW).getD 2 default).delta -
          ((pass2 cellsW).getD 1 default).delta)) :=
  ⟨by decide, pass2_spec cellsW 2 (by decide)⟩

/-! ## Claim C9 amended theorem -/

/-- Claim C9 (corrected): from_obj yields the explicit absent result None
for an object whose missing required field is among the checked ones (the
model's trends; a line's name, window_size, data, start_ts; a cell's
trending, count, delta, delta_delta), but a cell whose checked fields are
present and whose avg_followers, avg_statuses or retweets is missing raises
KeyError instead of returning None. -/
theorem from_obj_missing_field_behaviour :
    (∀ o : PModel, o.trends = none → TrendModel.from_obj o = .ok none) ∧
    (∀ o : PLine,
      o.name = none ∨ o.window_size = none ∨ o.data = none ∨ o.start_ts = none →
      TrendLine.from_obj o = .ok none) ∧
    (∀ o : PCell,
      o.trending = none ∨ o.count = none ∨ o.delta = none ∨ o.delta_delta = none →
      TrendCell.from_obj o = .ok none) ∧
    (∀ o : PCell, o.trending ≠ none → o.count ≠ none → o.delta ≠ none →
      o.delta_delta ≠ none →
      o.avg_followers = none ∨ o.avg_statuses = none ∨ o.retweets = none →
      TrendCell.from_obj o = .error ()) := by
  refine ⟨?_, ?_, ?_, ?_⟩
  · intro o h
    obtain ⟨tr⟩ := o
    subst h
    rfl
  · intro o h
    obtain ⟨n, s, w, d⟩ := o
    cases n <;> cases w <;> cases d <;> cases s <;> simp_all [TrendLine.from_obj]
  · intro o h
    obtain ⟨tr, c, d, dd, f, s, r⟩ := o
    cases tr <;> cases c <;> cases d <;> cases dd <;> simp_all [TrendCell.from_obj]
  · intro o h1 h2 h3 h4 h5
    obtain ⟨tr, c, d, dd, f, s, r⟩ := o
    cases tr with
    | none => exact absurd rfl h1
    | some tr =>
      cases c with
      | none => exact absurd rfl h2
      | some c =>
        cases d with
        | none => exact absurd rfl h3
        | some d =>
          cases dd with
          | none => exact absurd rfl h4
          | some dd =>
            cases f <;> cases s <;> cases r <;> simp_all [TrendCell.from_obj]

/-- Witness for claim C9: each conjunct applied at a concrete persisted
object with the respective field missing. -/
theorem from_obj_missing_field_behaviour_witness :
    TrendModel.from_obj ⟨none⟩ = .ok none ∧
    TrendLine.from_obj ⟨none, some 0, some 120, some []⟩ = .ok none ∧
    TrendCell.from_obj ⟨none, some 0, some 0, some 0, some 0, some 0, some 0⟩ = .ok none ∧
    TrendCell.from_obj cePCell = .error () :=
  ⟨from_obj_missing_field_behaviour.1 ⟨none⟩ rfl,
   from_obj_missing_field_behaviour.2.1 ⟨none, some 0, some 120, some []⟩ (Or.inl rfl),
   from_obj_missing_field_behaviour.2.2.1
     ⟨none, some 0, some 0, some 0, some 0, some 0, some 0⟩ (Or.inl rfl),
   from_obj_missing_field_behaviour.2.2.2 cePCell (by decide) (by decide) (by decide)
     (by decide) (Or.inl rfl)⟩

/-! ## Claim C2 -/

/-- normalize preserves the number of lines. -/
theorem normalize_length {m m1 : TrendModel} (hn : m.normalize = some m1) :
    m1.trends.length = m.trends.length := by
  unfold TrendModel.normalize at hn
  cases hmm : m.trends.mapM normalizeLine with
  | none => rw [hmm] at hn; simp at hn
  | some ts =>
    rw [hmm] at hn
    simp only [Option.map_some', Option.some.injEq] at hn
    rw [← hn]
    exact mapM_some_length _ hmm

/-- Claim C2 (code_bug): leave_one_out never produces a precision/recall
pair on a model with at least one line: building y evaluates
trend.data.trending, and a Python list has no attribute trending, so the
method raises AttributeError before any distance is computed. -/
theorem leave_one_out_never_returns (m : TrendModel) (h : m.trends ≠ []) :
    m.leave_one_out = none := by
  cases hn : m.normalize with
  | none => simp [TrendModel.leave_one_out, hn]
  | some m1 =>
    have hne : m1.trends ≠ [] := by
      have hl := normalize_length hn
      intro hnil
      rw [hnil] at hl
      exact h (List.length_eq_zero.mp hl.symm)
    simp only [TrendModel.leave_one_out, hn, Option.bind_eq_bind, Option.some_bind]
    rw [mapM_none_of_none
      (fun t => (listTrendingAttr t.data).bind fun b => pure (if b = true then 1 else 0))
      (fun t => rfl) hne]
    rfl

/-- Witness for claim C2: a model with one trending and one non-trending
populated line, exactly the shape the claim quantifies over. -/
theorem leave_one_out_never_returns_witness :
    (⟨[pLineW, nLineW]⟩ : TrendModel).trends ≠ [] ∧
    TrendModel.leave_one_out ⟨[pLineW, nLineW]⟩ = none :=
  ⟨by decide, leave_one_out_never_returns ⟨[pLineW, nLineW]⟩ (by decide)⟩

/-! ## Claim C4 -/

theorem dtwRow_col (a b : List TrendCell) : ∀ i, dtwRow a b i 0 = dtwCol0 a b i := by
  intro i
  match i with
  | 0 => rfl
  | (i + 1) => rfl

theorem dtwRow_succ_succ (a b : List TrendCell) (i j : ℕ) :
    dtwRow a b (i + 1) (j + 1) =
      (a.getD (i + 1) default).distance (b.getD (j + 1) default) +
        min (min (dtwRow a b i (j + 1)) (dtwRow a b (i + 1) j)) (dtwRow a b i j) := rfl

/-- The dtw table is symmetric under transposition inside the region the
equal-length call actually uses. -/
theorem dtwRow_comm (a b : List TrendCell) (h : a.length = b.length) :
    ∀ i, i < a.length → ∀ j, j < b.length → dtwRow a b i j = dtwRow b a j i := by
  intro i
  induction i with
  | zero =>
    intro _hi j
    induction j with
    | zero => intro _hj; rfl
    | succ k ihk =>
      intro hj
      have hk1 : k + 1 < a.length := by rw [h]; exact hj
      have hkb : k < b.length := by omega
      rw [dtwRow_col b a (k + 1)]
      show dtwRow0 a b (k + 1) = dtwCol0 b a (k + 1)
      unfold dtwRow0 dtwCol0
      rw [if_pos hk1, TrendCell.distance_comm]
      have := ihk hkb
      rw [dtwRow_col b a k] at this
      rw [show dtwRow a b 0 k = dtwRow0 a b k from rfl] at this
      rw [this]
  | succ i ihi =>
    intro hi j
    have hia : i < a.length := by omega
    induction j with
    | zero =>
      intro hj
      have hi1b : i + 1 < b.length := by rw [← h]; exact hi
      rw [dtwRow_col a b (i + 1)]
      show dtwCol0 a b (i + 1) = dtwRow0 b a (i + 1)
      unfold dtwRow0 dtwCol0
      rw [if_pos hi1b, TrendCell.distance_comm]
      have := ihi hia 0 hj
      rw [dtwRow_col a b i] at this
      rw [show dtwRow b a 0 i = dtwRow0 b a i from rfl] at this
      rw [← this]
    | succ k ihk =>
      intro hj
      have hkb : k < b.length := by omega
      rw [dtwRow_succ_succ a b i k, dtwRow_succ_succ b a k i]
      rw [TrendCell.distance_comm]
      rw [← ihi hia (k + 1) hj, ← ihk hkb, ← ihi hia k hkb]
      rw [min_comm (dtwRow a b i (k + 1)) (dtwRow a b (i + 1) k)]

/-- With equal lengths there is exactly one offset, so the sliding minimum
is that single total. -/
theorem slidingMin_eq_single (a b : List TrendCell) (h : a.length = b.length) :
    slidingMin a b = some (offsetTotal a b 0) := by
  unfold slidingMin
  rw [h, Nat.sub_self]
  rfl

theorem offsetTotal_comm_zero (a b : List TrendCell) (h : a.length = b.length) :
    offsetTotal a b 0 = offsetTotal b a 0 := by
  unfold offsetTotal
  rw [h]
  exact List.foldl_ext _ _ 0 (fun acc x _hx => by
    rw [Nat.zero_add, TrendCell.distance_comm])

/-- Claim C4 (corrected): the sliding-offset distance is symmetric for all
line pairs, and the full-warp distance is symmetric whenever the two cell
sequences have equal length (for unequal lengths one direction raises, see
the counterexample). -/
theorem distance_symmetry :
    (∀ x y : TrendLine, x.distance y = y.distance x) ∧
    (∀ a b : List TrendCell, a.length = b.length →
      dtw_distance a b = dtw_distance b a) := by
  constructor
  · intro x y
    unfold TrendLine.distance
    rcases lt_trichotomy x.data.length y.data.length with hlt | heq | hgt
    · rw [if_neg (by omega), if_pos hlt]
    · rw [if_neg (by omega), if_neg (by omega)]
      rw [slidingMin_eq_single _ _ heq, slidingMin_eq_single _ _ heq.symm]
      rw [offsetTotal_comm_zero _ _ heq]
    · rw [if_pos hgt, if_neg (by omega)]
  · intro a b h
    unfold dtw_distance
    by_cases h0 : a.length = 0
    · rw [if_pos (Or.inl h0), if_pos (Or.inr h0)]
    · have hb0 : ¬ b.length = 0 := by omega
      rw [if_neg (by omega), if_neg (by omega), if_neg (by omega), if_neg (by omega)]
      rw [h]
      congr 1
      exact dtwRow_comm a b h (b.length - 1) (by omega) (b.length - 1) (by omega)

/-- Witness for claim C4 at concrete inputs: symmetry of the sliding
distance on shortLine and xLine, and of the full-warp distance on the
equal-length pair xLine.data and [cellOne, cellTwo]. -/
theorem distance_symmetry_witness :
    xLine.data.length = ([cellOne, cellTwo] : List TrendCell).length ∧
    TrendLine.distance shortLine xLine = TrendLine.distance xLine shortLine ∧
    dtw_distance xLine.data [cellOne, cellTwo] =
      dtw_distance [cellOne, cellTwo] xLine.data :=
  ⟨by decide, distance_symmetry.1 shortLine xLine,
   distance_symmetry.2 xLine.data [cellOne, cellTwo] (by decide)⟩

/-! ## Claim C5 amended theorem -/

/-- The diagonal entries of the dtw table are bounded by the diagonal path
cost: each step may take the diagonal predecessor inside the min. -/
theorem dtwRow_diag_le (a b : List TrendCell) : ∀ i, dtwRow a b i i ≤ diagSum a b i := by
  intro i
  induction i with
  | zero => exact le_refl 0
  | succ k ih =>
    rw [dtwRow_succ_succ]
    have hmin : min (min (dtwRow a b k (k + 1)) (dtwRow a b (k + 1) k)) (dtwRow a b k k) ≤
        dtwRow a b k k := min_le_right _ _
    have : dtwRow a b (k + 1) (k + 1) ≤
        (a.getD (k + 1) default).distance (b.getD (k + 1) default) + dtwRow a b k k := by
      rw [dtwRow_succ_succ]
      exact add_le_add_left hmin _
    calc dtwRow a b (k + 1) (k + 1)
        ≤ (a.getD (k + 1) default).distance (b.getD (k + 1) default) + dtwRow a b k k := this
      _ ≤ (a.getD (k + 1) default).distance (b.getD (k + 1) default) + diagSum a b k :=
          add_le_add_left ih _
      _ = diagSum a b (k + 1) := by rw [show diagSum a b (k + 1) =
          diagSum a b k + (a.getD (k + 1) default).distance (b.getD (k + 1) default) from rfl,
          add_comm]

theorem foldl_dist_succ (a b : List TrendCell) (n : ℕ) :
    (List.range (n + 1)).foldl
      (fun total i => total + (a.getD i default).distance (b.getD (0 + i) default)) 0 =
    (List.range n).foldl
      (fun total i => total + (a.getD i default).distance (b.getD (0 + i) default)) 0 +
      (a.getD n default).distance (b.getD (0 + n) default) := by
  rw [List.range_succ, List.foldl_append]
  rfl

/-- The single offset-0 total is the head distance plus the diagonal sum. -/
theorem offsetTotal_zero_as_diag (a b : List TrendCell) :
    ∀ n, (List.range (n + 1)).foldl
      (fun total i => total + (a.getD i default).distance (b.getD (0 + i) default)) 0 =
      (a.getD 0 default).distance (b.getD 0 default) + diagSum a b n := by
  intro n
  induction n with
  | zero => rw [foldl_dist_succ]; simp [diagSum]
  | succ k ih =>
    rw [foldl_dist_succ, ih]
    have : (0 : ℕ) + (k + 1) = k + 1 := Nat.zero_add _
    rw [this,
      show diagSum a b (k + 1) =
        diagSum a b k + (a.getD (k + 1) default).distance (b.getD (k + 1) default) from rfl,
      add_assoc]

/-- Claim C5 (corrected): on equal-length nonempty cell sequences the
full-warp distance is bounded by the sliding-offset distance; for unequal
lengths the bound fails (see the counterexample). -/
theorem dtw_le_sliding_of_equal_length (x y : TrendLine)
    (h : x.data.length = y.data.length) (hne : x.data ≠ []) :
    ∃ v w, dtw_distance x.data y.data = some v ∧
      x.distance y = some w ∧ v ≤ w := by
  have hlen : x.data.length ≠ 0 := fun h0 => hne (List.length_eq_zero.mp h0)
  obtain ⟨n, hn⟩ : ∃ n, x.data.length = n + 1 := ⟨x.data.length - 1, by omega⟩
  refine ⟨dtwRow x.data y.data (x.data.length - 1) (y.data.length - 1),
    offsetTotal x.data y.data 0, ?_, ?_, ?_⟩
  · unfold dtw_distance
    rw [if_neg (by omega), if_neg (by omega)]
  · unfold TrendLine.distance
    rw [if_neg (by omega)]
    exact slidingMin_eq_single x.data y.data h
  · have hav : x.data.length - 1 = n := by omega
    have hbv : y.data.length - 1 = n := by omega
    rw [hav, hbv]
    have h1 := dtwRow_diag_le x.data y.data n
    have h2 : offsetTotal x.data y.data 0 =
        (x.data.getD 0 default).distance (y.data.getD 0 default) + diagSum x.data y.data n := by
      unfold offsetTotal
      rw [hn]
      exact offsetTotal_zero_as_diag x.data y.data n
    have h3 := TrendCell.distance_nonneg (x.data.getD 0 default) (y.data.getD 0 default)
    rw [h2]
    linarith

/-- Witness for the amended claim C5 on the equal-length pair xLine, zLineC5. -/
theorem dtw_le_sliding_witness :
    xLine.data.length = zLineC5.data.length ∧ xLine.data ≠ [] ∧
    (∃ v w, dtw_distance xLine.data zLineC5.data = some v ∧
      xLine.distance zLineC5 = some w ∧ v ≤ w) :=
  ⟨by decide, by decide, dtw_le_sliding_of_equal_length xLine zLineC5 (by decide) (by decide)⟩

/-! ## Claim C1 amended theorem -/

/-- Dividing a list of nonnegative values by the floored maximum keeps every
value in [0, 1], and either some value hits exactly 1 or all are 0. -/
theorem normField (vs : List ℚ) (hne : vs ≠ []) (hnn : ∀ v ∈ vs, 0 ≤ v) :
    (∀ v ∈ vs, 0 ≤ v / normDivisor vs ∧ v / normDivisor vs ≤ 1) ∧
    ((∃ v ∈ vs, v / normDivisor vs = 1) ∨ (∀ v ∈ vs, v / normDivisor vs = 0)) := by
  by_cases hM : listMax vs = 0
  · have hdiv : normDivisor vs = 1 := by unfold normDivisor; rw [if_pos hM]
    have hzero : ∀ v ∈ vs, v = 0 := fun v hv =>
      le_antisymm (hM ▸ le_listMax hv) (hnn v hv)
    constructor
    · intro v hv
      rw [hdiv, hzero v hv]
      norm_num
    · exact Or.inr (fun v hv => by rw [hdiv, hzero v hv]; norm_num)
  · have hdiv : normDivisor vs = listMax vs := by unfold normDivisor; rw [if_neg hM]
    have hmem := listMax_mem hne
    have hpos : 0 < listMax vs := lt_of_le_of_ne (hnn _ hmem) (Ne.symm hM)
    constructor
    · intro v hv
      rw [hdiv]
      exact ⟨div_nonneg (hnn v hv) (le_of_lt hpos), (div_le_one hpos).mpr (le_listMax hv)⟩
    · exact Or.inl ⟨listMax vs, hmem, by rw [hdiv, div_self hM]⟩

/-- Lifts normField through a map over cells, for one projected field. -/
theorem normMap_field (data : List TrendCell) (hne : data ≠ [])
    (F : TrendCell → ℚ) (G : TrendCell → TrendCell)
    (hF : ∀ c, F (G c) = F c / normDivisor (data.map F))
    (hnn : ∀ c ∈ data, 0 ≤ F c) :
    (∀ c1 ∈ data.map G, 0 ≤ F c1 ∧ F c1 ≤ 1) ∧
    ((∃ c1 ∈ data.map G, F c1 = 1) ∨ (∀ c1 ∈ data.map G, F c1 = 0)) := by
  have hvs := normField (data.map F) (by simpa using hne)
    (fun v hv => by
      rcases List.mem_map.mp hv with ⟨c, hc, rfl⟩
      exact hnn c hc)
  constructor
  · intro c1 hc1
    rcases List.mem_map.mp hc1 with ⟨c, hc, rfl⟩
    rw [hF]
    exact hvs.1 (F c) (List.mem_map_of_mem F hc)
  · rcases hvs.2 with ⟨v, hv, h1⟩ | hall
    · rcases List.mem_map.mp hv with ⟨c, hc, rfl⟩
      exact Or.inl ⟨G c, List.mem_map_of_mem G hc, by rw [hF]; exact h1⟩
    · refine Or.inr (fun c1 hc1 => ?_)
      rcases List.mem_map.mp hc1 with ⟨c, hc, rfl⟩
      rw [hF]
      exact hall (F c) (List.mem_map_of_mem F hc)

/-- The per-line normalize bounds, assuming nonnegative inputs. -/
theorem normalizeLine_bounds (t t1 : TrendLine) (hn : normalizeLine t = some t1)
    (hnn : ∀ c ∈ t.data, 0 ≤ c.count ∧ 0 ≤ c.delta ∧ 0 ≤ c.delta_delta ∧
      0 ≤ c.avg_followers ∧ 0 ≤ c.avg_statuses) :
    (∀ c ∈ t1.data,
      (0 ≤ c.count ∧ c.count ≤ 1) ∧ (0 ≤ c.delta ∧ c.delta ≤ 1) ∧
      (0 ≤ c.delta_delta ∧ c.delta_delta ≤ 1) ∧
      (0 ≤ c.avg_followers ∧ c.avg_followers ≤ 1) ∧
      (0 ≤ c.avg_statuses ∧ c.avg_statuses ≤ 1)) ∧
    ((∃ c ∈ t1.data, c.count = 1) ∨ (∀ c ∈ t1.data, c.count = 0)) ∧
    ((∃ c ∈ t1.data, c.delta = 1) ∨ (∀ c ∈ t1.data, c.delta = 0)) ∧
    ((∃ c ∈ t1.data, c.delta_delta = 1) ∨ (∀ c ∈ t1.data, c.delta_delta = 0)) ∧
    ((∃ c ∈ t1.data, c.avg_followers = 1) ∨ (∀ c ∈ t1.data, c.avg_followers = 0)) ∧
    ((∃ c ∈ t1.data, c.avg_statuses = 1) ∨ (∀ c ∈ t1.data, c.avg_statuses = 0)) := by
  unfold normalizeLine at hn
  by_cases he : t.data.isEmpty
  · rw [if_pos he] at hn
    cases hn
  · rw [if_neg he] at hn
    have hne : t.data ≠ [] := by simpa [List.isEmpty_iff] using he
    have hdata : t1.data = t.data.map (normCell
        (normDivisor (t.data.map (·.count)))
        (normDivisor (t.data.map (·.delta)))
        (normDivisor (t.data.map (·.delta_delta)))
        (normDivisor (t.data.map (·.avg_followers)))
        (normDivisor (t.data.map (·.avg_statuses)))) := by
      cases hn
      rfl
    rw [hdata]
    set G := normCell
      (normDivisor (t.data.map (·.count)))
      (normDivisor (t.data.map (·.delta)))
      (normDivisor (t.data.map (·.delta_delta)))
      (normDivisor (t.data.map (·.avg_followers)))
      (normDivisor (t.data.map (·.avg_statuses))) with hG
    have hcount := normMap_field t.data hne (·.count) G
      (fun c => by rw [hG]; simp [normCell]) (fun c hc => (hnn c hc).1)
    have hdelta := normMap_field t.data hne (·.delta) G
      (fun c => by rw [hG]; simp [normCell]) (fun c hc => (hnn c hc).2.1)
    have hdd := normMap_field t.data hne (·.delta_delta) G
      (fun c => by rw [hG]; simp [normCell]) (fun c hc => (hnn c hc).2.2.1)
    have hf := normMap_field t.data hne (·.avg_followers) G
      (fun c => by rw [hG]; simp [normCell]) (fun c hc => (hnn c hc).2.2.2.1)
    have hs := normMap_field t.data hne (·.avg_statuses) G
      (fun c => by rw [hG]; simp [normCell]) (fun c hc => (hnn c hc).2.2.2.2)
    exact ⟨fun c hc => ⟨hcount.1 c hc, hdelta.1 c hc, hdd.1 c hc, hf.1 c hc, hs.1 c hc⟩,
      hcount.2, hdelta.2, hdd.2, hf.2, hs.2⟩

/-- Claim C1 (corrected): provided every feature value of every cell is
nonnegative, after normalize every normalized field of every cell of every
line lies in [0, 1], and for each field of each line either some cell
attains exactly 1 or the field is 0 on the whole line (equivalently, the
line's maximum for that field was 0).  Without the nonnegativity proviso
the claim fails, see the counterexample. -/
theorem normalize_bounds (m m1 : TrendModel) (hn : m.normalize = some m1)
    (hnn : ∀ t ∈ m.trends, ∀ c ∈ t.data, 0 ≤ c.count ∧ 0 ≤ c.delta ∧
      0 ≤ c.delta_delta ∧ 0 ≤ c.avg_followers ∧ 0 ≤ c.avg_statuses) :
    ∀ t1 ∈ m1.trends,
      (∀ c ∈ t1.data,
        (0 ≤ c.count ∧ c.count ≤ 1) ∧ (0 ≤ c.delta ∧ c.delta ≤ 1) ∧
        (0 ≤ c.delta_delta ∧ c.delta_delta ≤ 1) ∧
        (0 ≤ c.avg_followers ∧ c.avg_followers ≤ 1) ∧
        (0 ≤ c.avg_statuses ∧ c.avg_statuses ≤ 1)) ∧
      ((∃ c ∈ t1.data, c.count = 1) ∨ (∀ c ∈ t1.data, c.count = 0)) ∧
      ((∃ c ∈ t1.data, c.delta = 1) ∨ (∀ c ∈ t1.data, c.delta = 0)) ∧
      ((∃ c ∈ t1.data, c.delta_delta = 1) ∨ (∀ c ∈ t1.data, c.delta_delta = 0)) ∧
      ((∃ c ∈ t1.data, c.avg_followers = 1) ∨ (∀ c ∈ t1.data, c.avg_followers = 0)) ∧
      ((∃ c ∈ t1.data, c.avg_statuses = 1) ∨ (∀ c ∈ t1.data, c.avg_statuses = 0)) := by
  intro t1 ht1
  unfold TrendModel.normalize at hn
  cases hmm : m.trends.mapM normalizeLine with
  | none => rw [hmm] at hn; simp at hn
  | some ts =>
    rw [hmm] at hn
    simp only [Option.map_some', Option.some.injEq] at hn
    rw [← hn] at ht1
    rcases mapM_some_mem normalizeLine hmm ht1 with ⟨t, ht, hline⟩
    exact normalizeLine_bounds t t1 hline (hnn t ht)

/-- Witness for the amended claim C1 on the concrete model mW. -/
theorem normalize_bounds_witness :
    TrendModel.normalize mW = some mW1 ∧
    ∀ t1 ∈ mW1.trends, ∀ c ∈ t1.data, 0 ≤ c.count ∧ c.count ≤ 1 := by
  have hnorm : TrendModel.normalize mW = some mW1 := by
    norm_num [TrendModel.normalize, normalizeLine, normCell, normDivisor, listMax,
      mW, mW1, cellOne, cellTwo, List.mapM, List.mapM.loop]
  have hpos : ∀ t ∈ mW.trends, ∀ c ∈ t.data, 0 ≤ c.count ∧ 0 ≤ c.delta ∧
      0 ≤ c.delta_delta ∧ 0 ≤ c.avg_followers ∧ 0 ≤ c.avg_statuses := by
    decide
  exact ⟨hnorm, fun t1 ht1 c hc =>
    ((normalize_bounds mW mW1 hnorm hpos t1 ht1).1 c hc).1⟩
